import Mathlib

/-!
Shallow embedding of the storage/cache subsystem of the `remember` repository
(src/types.ts, src/services/cache.ts, src/services/storage.ts,
src/services/github.ts), together with theorems settling the frozen claims.

Modelling conventions:
* Timestamps (`Date.now()`, `createdAt`, `updatedAt`) are epoch milliseconds,
  modelled as `Nat`; the ISO-8601 string form of `createdAt` used in remote
  paths is obtained with `toString`, preserving the source's property that the
  path is derived deterministically from `createdAt` and `id`.
* JS `Map` (insertion ordered, in-place overwrite) is modelled as an
  association list with `mapGet` / `mapSet` / `mapDelete` mirroring
  `Map.get` / `Map.set` / `Map.delete`.
* JSON serialization of an entity is abstracted: a remote file body is a
  `FileContent`, either `entity i` (a JSON document parsing to item `i`) or
  `blob s` (any other byte content, on which `JSON.parse`-as-`Item` fails).
* A remote object's git blob sha is an opaque version token, modelled as a
  `Nat` drawn from a fresh counter `nextSha` on every successful write.
* Transport or authentication failure of the remote API is modelled by the
  flag `Remote.available = false`, making every octokit call throw.
* The "Repo not set" guard of github.ts is not modelled: `StorageService`'s
  constructor sets the repo and `init` resolves the owner before any of the
  operations verified here can run.
* Each coordinator operation additionally reports the number of remote API
  calls it performed, so that "no remote access" claims are expressible.
-/

namespace Remember

/-- Entity type discriminator (types.ts `ItemType`). -/
inductive ItemType where
  | note
  | link
  | image
deriving DecidableEq, Repr

/-- The stored entity (types.ts `Item`). Optional booleans (`pinned?` etc.)
are modelled as `Bool` with `false` for `undefined`: the source only ever
tests them for truthiness or negates them. -/
structure Item where
  id : String
  type : ItemType
  content : String
  title : Option String := none
  description : Option String := none
  image : Option String := none
  createdAt : Nat
  updatedAt : Option Nat := none
  tags : List String := []
  pinned : Bool := false
  starred : Bool := false
  archived : Bool := false
deriving DecidableEq, Repr

/-- A `Partial<Item>` patch as accepted by `CacheService.update`: every field
optional, `some` meaning the field is present in the update object. -/
structure ItemPatch where
  id : Option String := none
  type : Option ItemType := none
  content : Option String := none
  title : Option (Option String) := none
  description : Option (Option String) := none
  image : Option (Option String) := none
  createdAt : Option Nat := none
  updatedAt : Option (Option Nat) := none
  tags : Option (List String) := none
  pinned : Option Bool := none
  starred : Option Bool := none
  archived : Option Bool := none
deriving DecidableEq, Repr

/-- JS object spread `{ ...existing, ...updates }` for an `Item` and a
`Partial<Item>`. -/
def applyPatch (base : Item) (p : ItemPatch) : Item :=
  { id := p.id.getD base.id
    type := p.type.getD base.type
    content := p.content.getD base.content
    title := p.title.getD base.title
    description := p.description.getD base.description
    image := p.image.getD base.image
    createdAt := p.createdAt.getD base.createdAt
    updatedAt := p.updatedAt.getD base.updatedAt
    tags := p.tags.getD base.tags
    pinned := p.pinned.getD base.pinned
    starred := p.starred.getD base.starred
    archived := p.archived.getD base.archived }

instance {ε α : Type} [DecidableEq ε] [DecidableEq α] : DecidableEq (Except ε α) := fun a b =>
  match a, b with
  | .error e1, .error e2 =>
    if h : e1 = e2 then .isTrue (by rw [h])
    else .isFalse (by intro hh; exact h (Except.error.inj hh))
  | .error _, .ok _ => .isFalse (by intro hh; exact Except.noConfusion hh)
  | .ok _, .error _ => .isFalse (by intro hh; exact Except.noConfusion hh)
  | .ok v1, .ok v2 =>
    if h : v1 = v2 then .isTrue (by rw [h])
    else .isFalse (by intro hh; exact h (Except.ok.inj hh))

/-! JS `Map` model: insertion-ordered association list. -/

/-- `Map.get`: value at the first (on a JS `Map`, only) occurrence of the
key. -/
def mapGet (m : List (String × α)) (k : String) : Option α :=
  match m with
  | [] => none
  | p :: t => if p.1 = k then some p.2 else mapGet t k

/-- `Map.has`. -/
def mapHas (m : List (String × α)) (k : String) : Bool :=
  match m with
  | [] => false
  | p :: t => p.1 = k || mapHas t k

/-- `Map.set`: overwrites in place when the key is present (a JS `Map` keeps
the original insertion position on overwrite, and holds each key at most
once), appends otherwise. -/
def mapSet (m : List (String × α)) (k : String) (v : α) : List (String × α) :=
  match m with
  | [] => [(k, v)]
  | p :: t => if p.1 = k then (k, v) :: t else p :: mapSet t k v

/-- Removal part of `Map.delete` (the returned `Bool` is `mapHas`): drops
every binding of the key (a JS `Map` holds at most one). -/
def mapDelete (m : List (String × α)) (k : String) : List (String × α) :=
  match m with
  | [] => []
  | p :: t => if p.1 = k then mapDelete t k else p :: mapDelete t k

/-- `Map.values()`, in insertion order. -/
def mapValues (m : List (String × α)) : List α :=
  m.map (fun p => p.2)

/-! Local cache (src/services/cache.ts). -/

/-- `CACHE_TTL = 1000 * 60 * 5` (five minutes, in milliseconds). -/
def CACHE_TTL : Nat := 1000 * 60 * 5

/-- The persisted cache record `{ items, timestamp }` (cache.ts `CacheData`). -/
structure CacheData where
  items : List Item
  timestamp : Nat
deriving DecidableEq, Repr

/-- What `localStorage.getItem(CACHE_KEY)` can yield: no entry, an entry on
which `JSON.parse` throws, or a parsed `CacheData` record. -/
inductive Snapshot where
  | absent
  | malformed
  | stored (d : CacheData)
deriving DecidableEq, Repr

/-- The mutable state of the `CacheService` singleton plus its backing
`localStorage` slot. -/
structure CacheState where
  snapshot : Snapshot
  memoryCache : List (String × Item)
  lastSync : Nat
deriving DecidableEq, Repr

namespace CacheService

/-- Fresh cache state: empty in-memory map, `lastSync = 0`, and a given
`localStorage` content. -/
def initial (snap : Snapshot) : CacheState :=
  { snapshot := snap, memoryCache := [], lastSync := 0 }

/-- Private `persistToStorage`: serializes the full current map with a fresh
timestamp. The `try/catch` around `localStorage.setItem` only swallows quota
errors; persistence is modelled as succeeding. -/
def persistToStorage (now : Nat) (c : CacheState) : CacheState :=
  { c with snapshot := .stored { items := mapValues c.memoryCache, timestamp := now } }

/-- The `load()` method: returns the persisted snapshot only if it exists,
parses, is fresh (`Date.now() - parsed.timestamp > CACHE_TTL` rejects), and
holds at least one item; on success it populates the in-memory map and sets
`lastSync` to the snapshot's timestamp. `Nat` truncated subtraction agrees
with the JS signed comparison because `CACHE_TTL ≥ 0`. -/
def load (now : Nat) (c : CacheState) : Option (List Item) × CacheState :=
  match c.snapshot with
  | .absent => (none, c)
  | .malformed => (none, c)
  | .stored d =>
    if now - d.timestamp > CACHE_TTL then (none, c)
    else if d.items.isEmpty then (none, c)
    else
      (some d.items
      , { c with
            memoryCache := d.items.foldl (fun m i => mapSet m i.id i) c.memoryCache
            lastSync := d.timestamp })

/-- The `save(items)` method: replaces the in-memory map, stamps `lastSync`
with the current time and persists `{ items, timestamp }`; the previous
cache state is discarded wholesale. -/
def save (now : Nat) (items : List Item) (_c : CacheState) : CacheState :=
  { snapshot := .stored { items := items, timestamp := now }
    memoryCache := items.foldl (fun m i => mapSet m i.id i) []
    lastSync := now }

/-- The `get(id)` method. -/
def get (id : String) (c : CacheState) : Option Item :=
  mapGet c.memoryCache id

/-- The `set(item)` method: in-memory insert keyed by the item's id, then
re-persist. -/
def set (now : Nat) (item : Item) (c : CacheState) : CacheState :=
  persistToStorage now { c with memoryCache := mapSet c.memoryCache item.id item }

/-- The `update(id, updates)` method: merged entity on success, `undefined`
(and no state change) when the id is not in the in-memory map. -/
def update (now : Nat) (id : String) (updates : ItemPatch) (c : CacheState) :
    Option Item × CacheState :=
  match mapGet c.memoryCache id with
  | none => (none, c)
  | some existing =>
    let updated := { applyPatch existing updates with updatedAt := some now }
    (some updated, persistToStorage now { c with memoryCache := mapSet c.memoryCache id updated })

/-- The `delete(id)` method: JS `Map.delete` reports whether the key was
present; the map is re-persisted only when it was. -/
def delete (now : Nat) (id : String) (c : CacheState) : Bool × CacheState :=
  if mapHas c.memoryCache id then
    (true, persistToStorage now { c with memoryCache := mapDelete c.memoryCache id })
  else (false, c)

/-- The `getAll()` method. -/
def getAll (c : CacheState) : List Item :=
  mapValues c.memoryCache

/-- The `isStale()` method. -/
def isStale (now : Nat) (c : CacheState) : Bool :=
  now - c.lastSync > CACHE_TTL

end CacheService

/-! String helpers. JS `String.prototype.startsWith` / `endsWith` and the
lexicographic order of `localeCompare` are modelled over the character
list of the string. -/

/-- JS `s.startsWith(p)`. -/
def strStartsWith (s p : String) : Bool :=
  s.data.take p.data.length = p.data

/-- JS `s.endsWith(suffix)`. -/
def strEndsWith (s suffix : String) : Bool :=
  s.data.drop (s.data.length - suffix.data.length) = suffix.data && suffix.data.length ≤ s.data.length

/-- Lexicographic code-point comparison, the model of `a.localeCompare(b) ≤ 0`. -/
def lexLe : List Char → List Char → Bool
  | [], _ => true
  | _ :: _, [] => false
  | a :: as, b :: bs =>
    if a.toNat < b.toNat then true
    else if b.toNat < a.toNat then false
    else lexLe as bs

/-! Remote object client (src/services/github.ts) over a model of the GitHub
contents API. -/

/-- Body of a remote object: either a JSON document that parses to an `Item`,
or any other content (assets, corrupted files) on which the item parse
fails. -/
inductive FileContent where
  | entity (i : Item)
  | blob (s : String)
deriving DecidableEq, Repr

/-- `JSON.parse(content) as Item`, with failure for non-entity content. -/
def parseItem : FileContent → Option Item
  | .entity i => some i
  | .blob _ => none

/-- A remote object: content plus the opaque version token (git blob sha)
required for overwrite and delete. -/
structure RemoteFile where
  content : FileContent
  sha : Nat
deriving DecidableEq, Repr

/-- State of the remote repository: path-addressed files, a fresh-token
counter, and whether the transport/auth layer is currently working (when
`available = false` every API call throws). -/
structure Remote where
  files : List (String × RemoteFile)
  nextSha : Nat
  available : Bool
deriving DecidableEq, Repr

/-- Errors of the modelled GitHub API and of github.ts itself. -/
inductive GhErr where
  /-- Transport or authentication failure: the octokit call throws with a
  non-404 status. -/
  | unavailable
  /-- HTTP 404 from the API: no object at the path. -/
  | notFound
  /-- HTTP 409/422 sha mismatch: the supplied version token is stale, or a
  create hit an occupied path. -/
  | conflict
  /-- The `throw new Error("File not found")` of `updateFile`/`deleteFile`
  when `getFileSha` yielded `null`. -/
  | fileNotFound
deriving DecidableEq, Repr

/-- Directory entry as returned by listing the contents API. -/
structure FileEntry where
  path : String
  name : String
deriving DecidableEq, Repr

namespace GitHubService

/-- `octokit.rest.repos.getContent` on a file path. -/
def getContent (r : Remote) (path : String) : Except GhErr RemoteFile :=
  if ¬ r.available then .error .unavailable
  else
    match mapGet r.files path with
    | some f => .ok f
    | none => .error .notFound

/-- `octokit.rest.repos.createOrUpdateFileContents`: without a sha it only
creates (an occupied path is rejected); with a sha it overwrites only if the
sha matches the object's current version token, assigning a fresh token. -/
def createOrUpdateFileContents (r : Remote) (path : String) (content : FileContent)
    (sha : Option Nat) : Except GhErr Remote :=
  if ¬ r.available then .error .unavailable
  else
    match mapGet r.files path, sha with
    | none, none =>
      .ok { r with files := r.files ++ [(path, { content := content, sha := r.nextSha })]
                   nextSha := r.nextSha + 1 }
    | none, some _ => .error .notFound
    | some _, none => .error .conflict
    | some f, some s =>
      if s = f.sha then
        .ok { r with files := mapSet r.files path { content := content, sha := r.nextSha }
                     nextSha := r.nextSha + 1 }
      else .error .conflict

/-- `octokit.rest.repos.deleteFile`: removes the object only when the
supplied sha matches its current version token. -/
def deleteFileApi (r : Remote) (path : String) (sha : Nat) : Except GhErr Remote :=
  if ¬ r.available then .error .unavailable
  else
    match mapGet r.files path with
    | none => .error .notFound
    | some f =>
      if sha = f.sha then .ok { r with files := mapDelete r.files path }
      else .error .conflict

/-- `getFileSha(path)`: the current version token, with every failure caught
and converted to `null`. -/
def getFileSha (r : Remote) (path : String) : Option Nat :=
  match getContent r path with
  | .ok f => some f.sha
  | .error _ => none

/-- `getFile(path)`: the decoded content, with every failure — not-found,
transport and auth alike — caught and converted to `null`. -/
def getFile (r : Remote) (path : String) : Option FileContent :=
  match getContent r path with
  | .ok f => some f.content
  | .error _ => none

/-- `createFile(path, content, message)`: create without a sha. -/
def createFile (r : Remote) (path : String) (content : FileContent) : Except GhErr Remote :=
  createOrUpdateFileContents r path content none

/-- `updateFile(path, content, message)`: fetches the object's current sha
first and throws `File not found` when that yields `null`; then overwrites
using the just-fetched token. -/
def updateFile (r : Remote) (path : String) (content : FileContent) : Except GhErr Remote :=
  match getFileSha r path with
  | none => .error .fileNotFound
  | some sha => createOrUpdateFileContents r path content (some sha)

/-- `deleteFile(path, message)`: fetches the current sha first and throws
`File not found` when that yields `null`; then deletes with that token. -/
def deleteFile (r : Remote) (path : String) : Except GhErr Remote :=
  match getFileSha r path with
  | none => .error .fileNotFound
  | some sha => deleteFileApi r path sha

/-- `listFiles(path)`: the entries under the directory, with every failure —
404 of a not-yet-existing directory, transport and auth alike — caught and
converted to the empty listing. The repository keeps only flat files under
`data/` and `assets/`, so listing a prefix is filtering the path table. -/
def listFiles (r : Remote) (dir : String) : List FileEntry :=
  if ¬ r.available then []
  else
    r.files.filterMap (fun p =>
      if strStartsWith p.1 (dir ++ "/") then
        some { path := p.1, name := p.1.drop (dir.length + 1) }
      else none)

end GitHubService

/-! Storage coordinator (src/services/storage.ts). -/

/-- Combined state the coordinator acts on: the remote repository, the cache
singleton, and the volatile `filePathMap : id → filepath`. -/
structure StorageState where
  remote : Remote
  cache : CacheState
  filePathMap : List (String × String)
deriving DecidableEq, Repr

/-- The `Item | string` argument of `deleteItem`. -/
inductive ItemOrId where
  | item (i : Item)
  | id (s : String)
deriving DecidableEq, Repr

namespace StorageService

/-- Private `getFilePath(item)`. -/
def getFilePath (item : Item) : String :=
  "data/" ++ toString item.createdAt ++ "-" ++ item.id ++ ".json"

/-- Sort comparator of `sortItems` as a `Bool` "may come before" relation:
`cmp(a, b) ≤ 0` for the source comparator (pinned first, then descending
`createdAt`). -/
def itemLE (a b : Item) : Bool :=
  if a.pinned && !b.pinned then true
  else if !a.pinned && b.pinned then false
  else b.createdAt ≤ a.createdAt

/-- The comparator as a decidable relation, for sorting. -/
def itemBefore (a b : Item) : Prop :=
  itemLE a b = true

instance : DecidableRel itemBefore :=
  fun a b => instDecidableEqBool (itemLE a b) true

instance : IsTotal Item itemBefore where
  total a b := by
    simp only [itemBefore, itemLE]
    cases ha : a.pinned <;> cases hb : b.pinned <;> simp <;> omega

instance : IsTrans Item itemBefore where
  trans a b c := by
    simp only [itemBefore, itemLE]
    cases a.pinned <;> cases b.pinned <;> cases c.pinned <;> simp <;> omega

/-- Private `sortItems(items)`: `[...items].sort(comparator)`, modelled by a
stable comparator-respecting sort. -/
def sortItems (items : List Item) : List Item :=
  items.insertionSort itemBefore

/-- Descending file-name order, `b.name.localeCompare(a.name)` as a
relation. -/
def nameGe (a b : FileEntry) : Prop :=
  lexLe b.name.data a.name.data = true

instance : DecidableRel nameGe :=
  fun a b => instDecidableEqBool (lexLe b.name.data a.name.data) true

/-- The `.json`-suffixed entries of the `data/` listing, sorted descending by
file name. -/
def sortedDataFiles (r : Remote) : List FileEntry :=
  ((GitHubService.listFiles r "data").filter
      (fun f => strEndsWith f.name ".json")).insertionSort nameGe

/-- The per-file fetch of `getItems`: path plus parsed item of every file
whose fetch and parse both succeed (a `null` content or a parse failure
drops the file). -/
def fetchedPairs (r : Remote) : List (String × Item) :=
  (sortedDataFiles r).filterMap (fun f =>
    ((GitHubService.getFile r f.path).bind parseItem).map (fun i => (f.path, i)))

/-- `validItems`: the successfully parsed items, in listing order. -/
def validItems (r : Remote) : List Item :=
  (fetchedPairs r).map (fun p => p.2)

/-- The `filePathMap.set(item.id, file.path)` calls performed during the
fetch, folded over the successful parses in listing order. -/
def newPathMap (m : List (String × String)) (r : Remote) : List (String × String) :=
  (fetchedPairs r).foldl (fun m p => mapSet m p.2.id p.1) m

/-- The remote-fetch tail of `getItems`: one listing call plus one
`getFile` per listed `.json` file; replaces the cache snapshot only when at
least one item was obtained; always returns a sorted list. -/
def fetchPhase (now : Nat) (s : StorageState) : List Item × StorageState × Nat :=
  let vItems := validItems s.remote
  let cache1 := if vItems.length > 0 then CacheService.save now vItems s.cache else s.cache
  (sortItems vItems
  , { remote := s.remote, cache := cache1, filePathMap := newPathMap s.filePathMap s.remote }
  , 1 + (sortedDataFiles s.remote).length)

/-- `getItems(forceRefresh = false)`: cache first unless forced — the cached
snapshot is used only when `load()` returned items and the cache is not
stale — otherwise the remote fetch phase runs on the cache state as `load`
left it. The third component counts remote API calls. -/
def getItems (forceRefresh : Bool) (now : Nat) (s : StorageState) :
    List Item × StorageState × Nat :=
  if forceRefresh then fetchPhase now s
  else
    match CacheService.load now s.cache with
    | (some cached, c1) =>
      if CacheService.isStale now c1 then fetchPhase now { s with cache := c1 }
      else (sortItems cached, { s with cache := c1 }, 0)
    | (none, c1) => fetchPhase now { s with cache := c1 }

/-- `saveItem(item)`: always a fresh create at the derived path; on success
the cache and the path index are updated. -/
def saveItem (now : Nat) (item : Item) (s : StorageState) :
    Except GhErr (StorageState × Nat) :=
  let path := getFilePath item
  match GitHubService.createFile s.remote path (.entity item) with
  | .error e => .error e
  | .ok r1 =>
    .ok ({ remote := r1
           cache := CacheService.set now item s.cache
           filePathMap := mapSet s.filePathMap item.id path }, 1)

/-- `updateItem(item)`: resolves the path from the index with fallback to the
derived path, stamps `updatedAt`, overwrites remote content (which re-fetches
the current sha), updates the cache. -/
def updateItem (now : Nat) (item : Item) (s : StorageState) :
    Except GhErr (StorageState × Nat) :=
  let path := (mapGet s.filePathMap item.id).getD (getFilePath item)
  let updatedItem := { item with updatedAt := some now }
  match GitHubService.updateFile s.remote path (.entity updatedItem) with
  | .error e => .error e
  | .ok r1 =>
    .ok ({ remote := r1
           cache := CacheService.set now updatedItem s.cache
           filePathMap := s.filePathMap }, 2)

/-- `deleteItem(itemOrId)`: with no path-index entry, removes from cache only
and returns without error and without any remote call; otherwise deletes the
remote object, clears cache and index, and — only when a full item carrying
an `image` was passed — best-effort deletes the asset, swallowing its
failure. -/
def deleteItem (now : Nat) (itemOrId : ItemOrId) (s : StorageState) :
    Except GhErr (StorageState × Nat) :=
  let id := match itemOrId with | .item i => i.id | .id str => str
  let item := match itemOrId with | .item i => some i | .id _ => none
  match mapGet s.filePathMap id with
  | none =>
    .ok ({ s with cache := (CacheService.delete now id s.cache).2 }, 0)
  | some path =>
    match GitHubService.deleteFile s.remote path with
    | .error e => .error e
    | .ok r1 =>
      let cache1 := (CacheService.delete now id s.cache).2
      let paths1 := mapDelete s.filePathMap id
      match item.bind (fun i => i.image) with
      | none => .ok ({ remote := r1, cache := cache1, filePathMap := paths1 }, 2)
      | some asset =>
        match GitHubService.deleteFile r1 asset with
        | .ok r2 => .ok ({ remote := r2, cache := cache1, filePathMap := paths1 }, 4)
        | .error _ => .ok ({ remote := r1, cache := cache1, filePathMap := paths1 }, 4)

/-- `togglePinned(item)`: flip the flag, route through `updateItem`, return
the updated value for optimistic reconciliation. -/
def togglePinned (now : Nat) (item : Item) (s : StorageState) :
    Except GhErr (Item × StorageState × Nat) :=
  let updated := { item with pinned := !item.pinned }
  match updateItem now updated s with
  | .error e => .error e
  | .ok (s1, n) => .ok (updated, s1, n)

/-- `optimisticUpdate(item)`: cache mutation only; no remote call. -/
def optimisticUpdate (now : Nat) (item : Item) (s : StorageState) :
    StorageState × Nat :=
  ({ s with cache := CacheService.set now item s.cache }, 0)

/-- `optimisticDelete(id)`: cache mutation only; no remote call. -/
def optimisticDelete (now : Nat) (id : String) (s : StorageState) :
    StorageState × Nat :=
  ({ s with cache := (CacheService.delete now id s.cache).2 }, 0)

/-- `getCachedItems()`: the in-memory map, falling back to the persisted
snapshot when memory is empty; sorted, and never a remote call. -/
def getCachedItems (now : Nat) (s : StorageState) : List Item × StorageState × Nat :=
  let memoryItems := CacheService.getAll s.cache
  if memoryItems.length = 0 then
    match CacheService.load now s.cache with
    | (some loaded, c1) =>
      if loaded.length > 0 then (sortItems loaded, { s with cache := c1 }, 0)
      else (sortItems memoryItems, { s with cache := c1 }, 0)
    | (none, c1) => (sortItems memoryItems, { s with cache := c1 }, 0)
  else (sortItems memoryItems, s, 0)

end StorageService

/-- The sort invariant the spec states: pinned entities precede unpinned
ones, and `createdAt` is non-increasing inside each group. -/
def sortedView (l : List Item) : Prop :=
  l.Pairwise fun a b =>
    (b.pinned = true → a.pinned = true) ∧ (a.pinned = b.pinned → b.createdAt ≤ a.createdAt)

/-! Concrete example states used by witnesses and counterexamples. -/

/-- A plain note entity. -/
def exItem : Item :=
  { id := "a", type := .note, content := "hello", createdAt := 100, tags := [] }

/-- Fresh cache with nothing persisted. -/
def exCache : CacheState := CacheService.initial .absent

/-- Remote holding the serialized `exItem` at its derived path. -/
def exRemote : Remote :=
  { files := [("data/100-a.json", { content := .entity exItem, sha := 0 })]
    nextSha := 1, available := true }

/-- Coordinator state with `exItem` on the remote and an indexed path. -/
def exState : StorageState :=
  { remote := exRemote, cache := exCache, filePathMap := [("a", "data/100-a.json")] }

/-- Same remote, but the path index holds no entry for the item. -/
def exStateNoPath : StorageState :=
  { remote := exRemote, cache := exCache, filePathMap := [] }

/-- The value a concurrent writer put at `exItem`'s path. -/
def exItemB : Item := { exItem with content := "vB" }

/-- Remote after the concurrent writer's overwrite: a fresh version token. -/
def exRemoteAfterB : Remote :=
  { files := [("data/100-a.json", { content := .entity exItemB, sha := 1 })]
    nextSha := 2, available := true }

/-- The stale writer's coordinator state: local copy predating B's write. -/
def exStaleState : StorageState :=
  { remote := exRemoteAfterB, cache := exCache, filePathMap := [("a", "data/100-a.json")] }

/-- The stale writer's local copy of the entity. -/
def exStaleItem : Item := { exItem with content := "vA" }

/-- What the stale writer's update stores remotely. -/
def exStaleUpdated : Item := { exStaleItem with updatedAt := some 200 }

/-- Cache holding a persisted one-item snapshot stamped at time 100. -/
def exCacheStored : CacheState :=
  { snapshot := .stored { items := [exItem], timestamp := 100 }
    memoryCache := [], lastSync := 0 }

/-- Coordinator state over the persisted snapshot. -/
def exStateStored : StorageState :=
  { remote := exRemote, cache := exCacheStored, filePathMap := [] }

/-- Remote whose only data file fails to parse as an entity. -/
def exGarbageRemote : Remote :=
  { files := [("data/1-z.json", { content := .blob "oops", sha := 0 })]
    nextSha := 1, available := true }

/-- Coordinator state with a non-empty persisted cache and a remote that
yields zero parsed entities. -/
def exGarbageState : StorageState :=
  { remote := exGarbageRemote, cache := exCacheStored, filePathMap := [] }

/-- Remote with the transport/auth layer down but the object present. -/
def exDownRemote : Remote :=
  { files := [("data/x.json", { content := .blob "x", sha := 0 })]
    nextSha := 1, available := false }

/-- State component of a successful storage operation, with a fallback for
the error case. -/
def okStateOr (dflt : StorageState) : Except GhErr (StorageState × Nat) → StorageState
  | .ok p => p.1
  | .error _ => dflt

/-! Helper lemmas about the JS `Map` model. -/

theorem mapGet_mapSet_self {α : Type} (m : List (String × α)) (k : String) (v : α) :
    mapGet (mapSet m k v) k = some v := by
  induction m with
  | nil => simp [mapSet, mapGet]
  | cons p t ih =>
    by_cases h : p.1 = k
    · simp [mapSet, h, mapGet]
    · simp [mapSet, h, mapGet, ih]

theorem mem_of_mapGet {α : Type} {m : List (String × α)} {k : String} {v : α}
    (h : mapGet m k = some v) : (k, v) ∈ m := by
  induction m with
  | nil => simp [mapGet] at h
  | cons p t ih =>
    by_cases hp : p.1 = k
    · obtain ⟨a, b⟩ := p
      simp only at hp
      subst hp
      simp [mapGet] at h
      subst h
      exact List.mem_cons_self _ _
    · simp only [mapGet, hp, if_neg, not_false_iff] at h
      exact List.mem_cons_of_mem _ (ih h)

theorem mapHas_eq_false_of_mapGet_none {α : Type} {m : List (String × α)} {k : String}
    (h : mapGet m k = none) : mapHas m k = false := by
  induction m with
  | nil => simp [mapHas]
  | cons p t ih =>
    by_cases hp : p.1 = k
    · simp [mapGet, hp] at h
    · simp only [mapGet, hp, if_neg, not_false_iff] at h
      simp [mapHas, hp, ih h]

theorem mapGet_mapDelete {α : Type} {m : List (String × α)} {k q : String} {v : α}
    (h : mapGet (mapDelete m k) q = some v) : mapGet m q = some v ∧ q ≠ k := by
  induction m with
  | nil => simp [mapDelete, mapGet] at h
  | cons p t ih =>
    by_cases hp : p.1 = k
    · rw [mapDelete, if_pos hp] at h
      obtain ⟨h1, h2⟩ := ih h
      refine ⟨?_, h2⟩
      rw [mapGet, if_neg (fun hq : p.1 = q => h2 (hq ▸ hp.symm ▸ hp))]
      exact h1
    · rw [mapDelete, if_neg hp] at h
      by_cases hq : p.1 = q
      · rw [mapGet, if_pos hq] at h
        exact ⟨by rw [mapGet, if_pos hq]; exact h, fun hk => hp (hq.trans hk)⟩
      · rw [mapGet, if_neg hq] at h
        obtain ⟨h1, h2⟩ := ih h
        exact ⟨by rw [mapGet, if_neg hq]; exact h1, h2⟩

theorem mem_mapValues_mapSet {α : Type} (m : List (String × α)) (k : String) (v : α) :
    v ∈ mapValues (mapSet m k v) := by
  induction m with
  | nil => simp [mapSet, mapValues]
  | cons p t ih =>
    by_cases h : p.1 = k
    · simp [mapSet, h, mapValues]
    · simp only [mapSet, h, if_neg, not_false_iff, mapValues, List.map_cons]
      exact List.mem_cons_of_mem _ ih

theorem mapValues_mapSet_ne_nil {α : Type} (m : List (String × α)) (k : String) (v : α) :
    mapValues (mapSet m k v) ≠ [] := by
  intro h
  exact absurd (h ▸ mem_mapValues_mapSet m k v) (List.not_mem_nil v)

/-! Helper lemmas about the cache. -/

theorem isEmpty_false_of_ne_nil {α : Type} {l : List α} (h : l ≠ []) : l.isEmpty = false := by
  cases l with
  | nil => exact absurd rfl h
  | cons a t => rfl

theorem ne_nil_of_isEmpty_ne_true {α : Type} {l : List α} (h : ¬ l.isEmpty = true) : l ≠ [] := by
  cases l with
  | nil => simp [List.isEmpty] at h
  | cons a t => simp

theorem load_stored_fresh {now : Nat} {c : CacheState} {d : CacheData}
    (hc : c.snapshot = .stored d) (hne : d.items ≠ []) (hfresh : now - d.timestamp ≤ CACHE_TTL) :
    CacheService.load now c =
      (some d.items
      , { c with memoryCache := d.items.foldl (fun m i => mapSet m i.id i) c.memoryCache
                 lastSync := d.timestamp }) := by
  unfold CacheService.load
  rw [hc]
  dsimp only
  rw [if_neg (by omega), if_neg (by rw [isEmpty_false_of_ne_nil hne]; simp)]

theorem load_none_state {now : Nat} {c : CacheState}
    (h : (CacheService.load now c).1 = none) : (CacheService.load now c).2 = c := by
  unfold CacheService.load at h ⊢
  cases hc : c.snapshot with
  | absent => rfl
  | malformed => rfl
  | stored d =>
    rw [hc] at h
    dsimp only at h ⊢
    split_ifs at h ⊢ with h1 h2
    · rfl
    · rfl

theorem load_some_shape {now : Nat} {c : CacheState} {l : List Item}
    (h : (CacheService.load now c).1 = some l) :
    ∃ d, c.snapshot = .stored d ∧ l = d.items ∧ d.items ≠ [] ∧ now - d.timestamp ≤ CACHE_TTL ∧
      (CacheService.load now c).2 =
        { c with memoryCache := d.items.foldl (fun m i => mapSet m i.id i) c.memoryCache
                 lastSync := d.timestamp } := by
  cases hc : c.snapshot with
  | absent => unfold CacheService.load at h; rw [hc] at h; simp at h
  | malformed => unfold CacheService.load at h; rw [hc] at h; simp at h
  | stored d =>
    unfold CacheService.load at h
    rw [hc] at h
    dsimp only at h
    split_ifs at h with h1 h2
    simp only [Option.some.injEq] at h
    have hne : d.items ≠ [] := ne_nil_of_isEmpty_ne_true h2
    refine ⟨d, rfl, h.symm, hne, by omega, ?_⟩
    rw [load_stored_fresh hc hne (by omega), hc]

/-! Helper lemmas about the remote client. -/

theorem getFile_some_iff {r : Remote} {p : String} {c : FileContent} :
    GitHubService.getFile r p = some c ↔
      r.available = true ∧ ∃ f, mapGet r.files p = some f ∧ c = f.content := by
  unfold GitHubService.getFile GitHubService.getContent
  by_cases ha : r.available
  · match hm : mapGet r.files p with
    | some f => simp [ha, hm, eq_comm]
    | none => simp [ha, hm]
  · simp [ha]

theorem updateFile_ok {r : Remote} {p : String} {f : RemoteFile} (c : FileContent)
    (ha : r.available = true) (hm : mapGet r.files p = some f) :
    GitHubService.updateFile r p c =
      .ok { r with files := mapSet r.files p { content := c, sha := r.nextSha }
                   nextSha := r.nextSha + 1 } := by
  unfold GitHubService.updateFile GitHubService.getFileSha GitHubService.getContent
    GitHubService.createOrUpdateFileContents
  simp [ha, hm]

theorem updateFile_error {r : Remote} {p : String} {c : FileContent} {e : GhErr}
    (h : GitHubService.updateFile r p c = .error e) : e = .fileNotFound := by
  unfold GitHubService.updateFile GitHubService.getFileSha GitHubService.getContent
    GitHubService.createOrUpdateFileContents at h
  by_cases ha : r.available
  · match hm : mapGet r.files p with
    | some f => simp [ha, hm] at h
    | none =>
      simp [ha, hm] at h
      exact h.symm
  · simp [ha] at h
    exact h.symm

theorem deleteFile_ok {r : Remote} {p : String} {f : RemoteFile}
    (ha : r.available = true) (hm : mapGet r.files p = some f) :
    GitHubService.deleteFile r p = .ok { r with files := mapDelete r.files p } := by
  unfold GitHubService.deleteFile GitHubService.getFileSha GitHubService.getContent
    GitHubService.deleteFileApi
  simp [ha, hm]

/-! Helper lemmas about sorting and the fetch pipeline. -/

theorem itemBefore_view {a b : Item} (h : StorageService.itemBefore a b) :
    (b.pinned = true → a.pinned = true) ∧ (a.pinned = b.pinned → b.createdAt ≤ a.createdAt) := by
  unfold StorageService.itemBefore StorageService.itemLE at h
  cases ha : a.pinned <;> cases hb : b.pinned <;> simp [ha, hb] at h ⊢ <;> omega

theorem sortedView_sortItems (l : List Item) : sortedView (StorageService.sortItems l) :=
  (List.sorted_insertionSort StorageService.itemBefore l).imp fun h => itemBefore_view h

theorem mem_sortItems {a : Item} {l : List Item} :
    a ∈ StorageService.sortItems l ↔ a ∈ l :=
  List.mem_insertionSort StorageService.itemBefore

theorem sortItems_nil : StorageService.sortItems [] = [] := rfl

theorem mem_validItems {r : Remote} {i : Item} (h : i ∈ StorageService.validItems r) :
    ∃ q f, mapGet r.files q = some f ∧ f.content = .entity i := by
  unfold StorageService.validItems at h
  obtain ⟨pr, hmem, hsnd⟩ := List.mem_map.mp h
  unfold StorageService.fetchedPairs at hmem
  obtain ⟨fe, hfe_mem, hfe⟩ := List.mem_filterMap.mp hmem
  obtain ⟨j, hbind, hpair⟩ := Option.map_eq_some'.mp hfe
  obtain ⟨cnt, hget, hparse⟩ := Option.bind_eq_some.mp hbind
  obtain ⟨ha, f, hmg, hcf⟩ := getFile_some_iff.mp hget
  have hij : j = i := by
    rw [← hpair] at hsnd
    simpa using hsnd
  have hcnt : cnt = .entity j := by
    cases cnt with
    | entity k =>
      have : k = j := Option.some.inj (by simpa [parseItem] using hparse)
      rw [this]
    | blob s => simp [parseItem] at hparse
  subst hij
  exact ⟨fe.path, f, hmg, by rw [← hcf, hcnt]⟩

theorem fetchPhase_calls (now : Nat) (s : StorageState) :
    (StorageService.fetchPhase now s).2.2 = 1 + (StorageService.sortedDataFiles s.remote).length :=
  rfl

theorem fetchPhase_val (now : Nat) (s : StorageState) :
    (StorageService.fetchPhase now s).1 = StorageService.sortItems (StorageService.validItems s.remote) :=
  rfl

/-! Claim C10. -/

/-- C10: for an id not present in the cache's in-memory map,
`CacheService.update` returns absent and `CacheService.delete` returns
`false`, and in both cases the in-memory map and the persisted snapshot are
left completely unchanged. -/
theorem C10_cache_miss_noop (now : Nat) (c : CacheState) (id : String) (patch : ItemPatch)
    (h : mapGet c.memoryCache id = none) :
    CacheService.update now id patch c = (none, c) ∧
    CacheService.delete now id c = (false, c) := by
  constructor
  · unfold CacheService.update
    rw [h]
  · unfold CacheService.delete
    rw [mapHas_eq_false_of_mapGet_none h]
    simp

theorem C10_witness :
    CacheService.update 5 "zz" {} (CacheService.initial .absent) =
      (none, CacheService.initial .absent) ∧
    CacheService.delete 5 "zz" (CacheService.initial .absent) =
      (false, CacheService.initial .absent) :=
  C10_cache_miss_noop 5 (CacheService.initial .absent) "zz" {} (by decide)

/-! Claim C8 (corrected). -/

/-- C8 counterexample: with the transport down and the object present,
`getFile` returns absent instead of propagating the failure — absent does
not coincide with the object being missing. -/
theorem C8_counterexample :
    GitHubService.getFile exDownRemote "data/x.json" = none ∧
    mapGet exDownRemote.files "data/x.json" = some { content := .blob "x", sha := 0 } ∧
    exDownRemote.available = false :=
  ⟨rfl, rfl, rfl⟩

/-- C8 amended: `getFile` returns content exactly when the transport works
and the object exists; every failure — not-found, transport and auth alike —
is converted into an absent result, and none propagates. -/
theorem C8_getFile_total (r : Remote) (p : String) (c : FileContent) :
    GitHubService.getFile r p = some c ↔
      r.available = true ∧ ∃ f, mapGet r.files p = some f ∧ c = f.content :=
  getFile_some_iff

theorem C8_witness :
    GitHubService.getFile exRemote "data/100-a.json" = some (.entity exItem) :=
  (C8_getFile_total exRemote "data/100-a.json" (.entity exItem)).mpr
    ⟨rfl, ⟨{ content := .entity exItem, sha := 0 }, rfl, rfl⟩⟩

/-! Claim C2 (corrected). -/

/-- C2 counterexample: the remote object was overwritten by a concurrent
writer (token 0 invalidated, current value `exItemB` at token 1), yet the
stale writer's `updateItem` succeeds — no `Conflict` — and leaves the remote
object at the stale writer's value, not the concurrent writer's. -/
theorem C2_counterexample :
    (StorageService.updateItem 200 exStaleItem exStaleState).isOk = true ∧
    mapGet (okStateOr exStaleState
        (StorageService.updateItem 200 exStaleItem exStaleState)).remote.files
      "data/100-a.json" = some { content := .entity exStaleUpdated, sha := 2 } ∧
    FileContent.entity exStaleUpdated ≠ FileContent.entity exItemB := by
  refine ⟨rfl, rfl, by decide⟩

/-- C2 amended: `updateItem` holds no version token — `updateFile` re-fetches
the current token immediately before writing — so an update from a stale
local copy succeeds and overwrites the concurrent writer's value (last write
wins); `updateFile` fails only with the file-not-found error, never with a
conflict. -/
theorem C2_last_write_wins :
    (∀ (r : Remote) (p : String) (c : FileContent) (e : GhErr),
        GitHubService.updateFile r p c = .error e → e = .fileNotFound) ∧
    (∀ (now : Nat) (item : Item) (s : StorageState) (f : RemoteFile),
        s.remote.available = true →
        mapGet s.remote.files
            ((mapGet s.filePathMap item.id).getD (StorageService.getFilePath item)) = some f →
        StorageService.updateItem now item s =
          .ok ({ remote :=
                  { files := mapSet s.remote.files
                      ((mapGet s.filePathMap item.id).getD (StorageService.getFilePath item))
                      { content := .entity { item with updatedAt := some now }
                        sha := s.remote.nextSha }
                    nextSha := s.remote.nextSha + 1
                    available := s.remote.available }
                 cache := CacheService.set now { item with updatedAt := some now } s.cache
                 filePathMap := s.filePathMap }, 2)) := by
  constructor
  · exact fun r p c e h => updateFile_error h
  · intro now item s f ha hm
    unfold StorageService.updateItem
    dsimp only
    rw [updateFile_ok (.entity { item with updatedAt := some now }) ha hm]

theorem C2_witness :
    StorageService.updateItem 200 exStaleItem exStaleState =
      .ok ({ remote :=
              { files := mapSet exStaleState.remote.files "data/100-a.json"
                  { content := .entity exStaleUpdated, sha := 2 }
                nextSha := 3
                available := true }
             cache := CacheService.set 200 exStaleUpdated exStaleState.cache
             filePathMap := exStaleState.filePathMap }, 2) :=
  C2_last_write_wins.2 200 exStaleItem exStaleState
    { content := .entity exItemB, sha := 1 } rfl (by decide)

/-! Claim C4. -/

/-- C4: `load()` returns the persisted snapshot exactly when it exists,
parses, holds at least one entity, and its timestamp is within the 5-minute
freshness window; in every other case it returns absent, and
`getItems(false)` then performs a remote fetch. -/
theorem C4_cache_validity (now : Nat) (c : CacheState) :
    ((CacheService.load now c).1.isSome ↔
      ∃ d, c.snapshot = .stored d ∧ d.items ≠ [] ∧ now - d.timestamp ≤ CACHE_TTL) ∧
    (∀ d, c.snapshot = .stored d → d.items ≠ [] → now - d.timestamp ≤ CACHE_TTL →
      (CacheService.load now c).1 = some d.items) ∧
    ((CacheService.load now c).1 = none →
      ∀ r m, 0 < (StorageService.getItems false now
        { remote := r, cache := c, filePathMap := m }).2.2) := by
  refine ⟨⟨?_, ?_⟩, ?_, ?_⟩
  · intro hs
    obtain ⟨l, hl⟩ := Option.isSome_iff_exists.mp hs
    obtain ⟨d, hc, _, hne, hfresh, _⟩ := load_some_shape hl
    exact ⟨d, hc, hne, hfresh⟩
  · rintro ⟨d, hc, hne, hfresh⟩
    rw [load_stored_fresh hc hne hfresh]
    rfl
  · intro d hc hne hfresh
    rw [load_stored_fresh hc hne hfresh]
  · intro hnone r m
    have hl : CacheService.load now c = (none, (CacheService.load now c).2) := by
      rw [← hnone]
    unfold StorageService.getItems
    dsimp only
    rw [hl]
    dsimp only
    rw [if_neg (by simp), fetchPhase_calls]
    omega

theorem C4_witness :
    (CacheService.load 200
      { snapshot := .stored { items := [exItem], timestamp := 100 }
        memoryCache := [], lastSync := 0 }).1 = some [exItem] :=
  (C4_cache_validity 200 _).2.1 { items := [exItem], timestamp := 100 } rfl
    (by decide) (by decide)

/-! Claim C3. -/

/-- C3: every list returned by `getItems` or `getCachedItems` places all
`pinned = true` entities before all `pinned = false` entities, and within
each group `createdAt` is non-increasing. -/
theorem C3_sort_invariant (force : Bool) (now now2 : Nat) (s t : StorageState) :
    sortedView (StorageService.getItems force now s).1 ∧
    sortedView (StorageService.getCachedItems now2 t).1 := by
  constructor
  · unfold StorageService.getItems
    repeat' split
    all_goals exact sortedView_sortItems _
  · unfold StorageService.getCachedItems
    dsimp only
    repeat' split
    all_goals exact sortedView_sortItems _

theorem C3_witness :
    sortedView (StorageService.getItems true 0 exState).1 ∧
    sortedView (StorageService.getCachedItems 0 exState).1 :=
  C3_sort_invariant true 0 0 exState exState

/-! Claim C7. -/

/-- C7: `optimisticUpdate(e)` immediately makes `getCachedItems` return a
list including `e`, and neither operation performs any remote call (call
count zero, remote state untouched). -/
theorem C7_optimistic_staging (now now2 : Nat) (item : Item) (s : StorageState) :
    (StorageService.optimisticUpdate now item s).2 = 0 ∧
    (StorageService.optimisticUpdate now item s).1.remote = s.remote ∧
    item ∈ (StorageService.getCachedItems now2 (StorageService.optimisticUpdate now item s).1).1 ∧
    (StorageService.getCachedItems now2 (StorageService.optimisticUpdate now item s).1).2.2 = 0 ∧
    (StorageService.getCachedItems now2
      (StorageService.optimisticUpdate now item s).1).2.1.remote = s.remote := by
  have hmem0 : item ∈ CacheService.getAll (StorageService.optimisticUpdate now item s).1.cache :=
    mem_mapValues_mapSet s.cache.memoryCache item.id item
  have hne : CacheService.getAll (StorageService.optimisticUpdate now item s).1.cache ≠ [] :=
    mapValues_mapSet_ne_nil s.cache.memoryCache item.id item
  refine ⟨rfl, rfl, ?_, ?_, ?_⟩
  · unfold StorageService.getCachedItems
    dsimp only
    rw [if_neg (by simpa [List.length_eq_zero] using hne)]
    exact mem_sortItems.mpr hmem0
  · unfold StorageService.getCachedItems
    dsimp only
    rw [if_neg (by simpa [List.length_eq_zero] using hne)]
  · unfold StorageService.getCachedItems
    dsimp only
    rw [if_neg (by simpa [List.length_eq_zero] using hne)]
    rfl

theorem C7_witness :
    exItem ∈ (StorageService.getCachedItems 2
      (StorageService.optimisticUpdate 1 exItem exState).1).1 :=
  (C7_optimistic_staging 1 2 exItem exState).2.2.1

/-! Claim C6. -/

theorem getItems_cache_hit {t : Nat} {s : StorageState} {d : CacheData}
    (hc : s.cache.snapshot = .stored d) (hne : d.items ≠ [])
    (hfresh : t - d.timestamp ≤ CACHE_TTL) :
    StorageService.getItems false t s =
      (StorageService.sortItems d.items
      , { s with cache := { s.cache with
            memoryCache := d.items.foldl (fun m i => mapSet m i.id i) s.cache.memoryCache
            lastSync := d.timestamp } }
      , 0) := by
  unfold StorageService.getItems
  rw [if_neg (by simp), load_stored_fresh hc hne hfresh]
  dsimp only
  rw [if_neg (by unfold CacheService.isStale; simp; omega)]

/-- C6: two `getItems(false)` calls inside the freshness window of a valid
non-empty cache snapshot, with nothing in between, both return the sorted
cache contents and neither makes any remote API call. -/
theorem C6_read_idempotent (t1 t2 : Nat) (s : StorageState) (d : CacheData)
    (hc : s.cache.snapshot = .stored d) (hne : d.items ≠ [])
    (h1 : t1 - d.timestamp ≤ CACHE_TTL) (h2 : t2 - d.timestamp ≤ CACHE_TTL) :
    (StorageService.getItems false t1 s).1 = StorageService.sortItems d.items ∧
    (StorageService.getItems false t1 s).2.2 = 0 ∧
    (StorageService.getItems false t2 (StorageService.getItems false t1 s).2.1).1 =
      StorageService.sortItems d.items ∧
    (StorageService.getItems false t2 (StorageService.getItems false t1 s).2.1).2.2 = 0 := by
  have g1 := getItems_cache_hit hc hne h1
  have hc2 : (StorageService.getItems false t1 s).2.1.cache.snapshot = .stored d := by
    rw [g1]
    exact hc
  have g2 := getItems_cache_hit hc2 hne h2
  exact ⟨by rw [g1], by rw [g1], by rw [g2], by rw [g2]⟩

theorem C6_witness :
    (StorageService.getItems false 150 exStateStored).1 = StorageService.sortItems [exItem] ∧
    (StorageService.getItems false 150 exStateStored).2.2 = 0 ∧
    (StorageService.getItems false 200
      (StorageService.getItems false 150 exStateStored).2.1).1 =
      StorageService.sortItems [exItem] ∧
    (StorageService.getItems false 200
      (StorageService.getItems false 150 exStateStored).2.1).2.2 = 0 :=
  C6_read_idempotent 150 200 exStateStored { items := [exItem], timestamp := 100 }
    rfl (by decide) (by decide) (by decide)

/-! Claim C5. -/

theorem fetchPhase_empty {now : Nat} {s : StorageState}
    (hempty : StorageService.validItems s.remote = []) :
    StorageService.fetchPhase now s =
      ([], s, 1 + (StorageService.sortedDataFiles s.remote).length) := by
  have hfp : StorageService.fetchedPairs s.remote = [] := by
    unfold StorageService.validItems at hempty
    exact List.map_eq_nil_iff.mp hempty
  unfold StorageService.fetchPhase StorageService.newPathMap
  rw [hempty, hfp]
  simp [StorageService.sortItems]

/-- C5: a forced or stale-cache run of `getItems` that obtains zero
successfully parsed entities leaves the cache snapshot (in-memory map and
persisted record), the path index and the remote state unchanged, and
returns the empty list. -/
theorem C5_empty_fetch_preserves_cache (force : Bool) (now : Nat) (s : StorageState)
    (hrun : force = true ∨ (CacheService.load now s.cache).1 = none)
    (hempty : StorageService.validItems s.remote = []) :
    (StorageService.getItems force now s).1 = [] ∧
    (StorageService.getItems force now s).2.1.cache = s.cache ∧
    (StorageService.getItems force now s).2.1.filePathMap = s.filePathMap ∧
    (StorageService.getItems force now s).2.1.remote = s.remote := by
  cases force with
  | true =>
    have g : StorageService.getItems true now s = StorageService.fetchPhase now s := rfl
    rw [g, fetchPhase_empty hempty]
    exact ⟨rfl, rfl, rfl, rfl⟩
  | false =>
    rcases hrun with hf | hn
    · exact absurd hf (by simp)
    · have hc1 := load_none_state hn
      have hl : CacheService.load now s.cache = (none, s.cache) :=
        Prod.ext_iff.mpr ⟨hn, hc1⟩
      have hgoal : StorageService.getItems false now s = StorageService.fetchPhase now s := by
        unfold StorageService.getItems
        rw [if_neg (by simp), hl]
      rw [hgoal, fetchPhase_empty hempty]
      exact ⟨rfl, rfl, rfl, rfl⟩

theorem C5_witness :
    (StorageService.getItems true 0 exGarbageState).1 = [] ∧
    (StorageService.getItems true 0 exGarbageState).2.1.cache = exGarbageState.cache ∧
    (StorageService.getItems true 0 exGarbageState).2.1.filePathMap =
      exGarbageState.filePathMap ∧
    (StorageService.getItems true 0 exGarbageState).2.1.remote = exGarbageState.remote :=
  C5_empty_fetch_preserves_cache true 0 exGarbageState (Or.inl rfl) (by decide)

/-! Claim C9. -/

/-- C9: `deleteItem` invoked with a bare id and a known path deletes exactly
the remote entity object (every other remote path, assets included, is left
untouched), clears the cache entry and the path-index entry, and performs no
asset deletion attempt. -/
theorem C9_bare_id_delete (now : Nat) (id p : String) (s : StorageState) (f : RemoteFile)
    (hpath : mapGet s.filePathMap id = some p)
    (ha : s.remote.available = true)
    (hfile : mapGet s.remote.files p = some f) :
    StorageService.deleteItem now (.id id) s =
      .ok ({ remote := { files := mapDelete s.remote.files p
                         nextSha := s.remote.nextSha
                         available := s.remote.available }
             cache := (CacheService.delete now id s.cache).2
             filePathMap := mapDelete s.filePathMap id }, 2) := by
  unfold StorageService.deleteItem
  dsimp only
  rw [hpath]
  dsimp only
  rw [deleteFile_ok ha hfile]
  rfl

theorem C9_witness :
    StorageService.deleteItem 7 (.id "a") exState =
      .ok ({ remote := { files := mapDelete exState.remote.files "data/100-a.json"
                         nextSha := exState.remote.nextSha
                         available := exState.remote.available }
             cache := (CacheService.delete 7 "a" exState.cache).2
             filePathMap := mapDelete exState.filePathMap "a" }, 2) :=
  C9_bare_id_delete 7 "a" "data/100-a.json" exState { content := .entity exItem, sha := 0 }
    (by decide) rfl (by decide)

/-! Claim C1 (corrected). -/

theorem deleteFile_ok_files {r : Remote} {p : String} {r2 : Remote}
    (h : GitHubService.deleteFile r p = .ok r2) :
    r2 = { r with files := mapDelete r.files p } := by
  obtain ⟨fls, nsha, avail⟩ := r
  unfold GitHubService.deleteFile GitHubService.deleteFileApi GitHubService.getFileSha
    GitHubService.getContent at h
  cases avail with
  | false => simp at h
  | true =>
    match hm : mapGet fls p with
    | some f =>
      simp [hm] at h
      exact h.symm
    | none => simp [hm] at h

theorem no_entity_after (s : StorageState) (p : String) (e : Item) (r2 : Remote) (now2 : Nat)
    (c : CacheState) (m : List (String × String))
    (hsub : ∀ q g, mapGet r2.files q = some g → mapGet s.remote.files q = some g ∧ q ≠ p)
    (huniq : ∀ q g i, mapGet s.remote.files q = some g → g.content = .entity i →
      i.id = e.id → q = p) :
    e.id ∉ ((StorageService.getItems true now2
      { remote := r2, cache := c, filePathMap := m }).1.map Item.id) := by
  intro hmem
  obtain ⟨i, hiMem, hid⟩ := List.mem_map.mp hmem
  have h1 : i ∈ StorageService.validItems r2 := by
    have heq : (StorageService.getItems true now2
        { remote := r2, cache := c, filePathMap := m }).1 =
        StorageService.sortItems (StorageService.validItems r2) := rfl
    rw [heq] at hiMem
    exact mem_sortItems.mp hiMem
  obtain ⟨q, g, hq, hg⟩ := mem_validItems h1
  obtain ⟨hq0, hqp⟩ := hsub q g hq
  exact hqp (huniq q g i hq0 hg hid)

/-- C1 counterexample: the path index holds no entry for the entity, yet
`deleteItem` completes without error — removing nothing remotely and not
falling back to the derived path — and the forced refetch still returns the
entity's id. -/
theorem C1_counterexample :
    StorageService.deleteItem 0 (.item exItem) exStateNoPath = .ok (exStateNoPath, 0) ∧
    "a" ∈ ((StorageService.getItems true 0 exStateNoPath).1.map Item.id) := by
  refine ⟨by decide, by decide⟩

/-- C1 amended: when the path index holds no entry for the entity,
`deleteItem` only clears the cache, makes no remote call, and returns
without error — there is no fallback to the derived path, so the remote
object survives. When an index entry exists (and it is the only remote
object carrying the entity's id), `deleteItem` completes without error and
a subsequent `getItems(true)` never returns an entity with that id. -/
theorem C1_delete_requires_path_index :
    (∀ (now : Nat) (e : Item) (s : StorageState),
        mapGet s.filePathMap e.id = none →
        StorageService.deleteItem now (.item e) s =
          .ok ({ s with cache := (CacheService.delete now e.id s.cache).2 }, 0)) ∧
    (∀ (now now2 : Nat) (e : Item) (s : StorageState) (p : String) (f : RemoteFile),
        mapGet s.filePathMap e.id = some p →
        s.remote.available = true →
        mapGet s.remote.files p = some f →
        (∀ q g i, mapGet s.remote.files q = some g → g.content = .entity i →
          i.id = e.id → q = p) →
        ∃ s1 n, StorageService.deleteItem now (.item e) s = .ok (s1, n) ∧
          e.id ∉ ((StorageService.getItems true now2 s1).1.map Item.id)) := by
  constructor
  · intro now e s h
    unfold StorageService.deleteItem
    dsimp only
    rw [h]
  · intro now now2 e s p f hpath ha hfile huniq
    unfold StorageService.deleteItem
    dsimp only
    rw [hpath]
    dsimp only
    rw [deleteFile_ok ha hfile]
    dsimp only [Option.bind]
    cases himg : e.image with
    | none =>
      refine ⟨_, _, rfl, ?_⟩
      exact no_entity_after s p e _ now2 _ _ (fun q g hq => mapGet_mapDelete hq) huniq
    | some asset =>
      dsimp only
      cases hdel : GitHubService.deleteFile
          { s.remote with files := mapDelete s.remote.files p } asset with
      | ok r2 =>
        refine ⟨_, _, rfl, ?_⟩
        refine no_entity_after s p e _ now2 _ _ ?_ huniq
        intro q g hq
        rw [deleteFile_ok_files hdel] at hq
        obtain ⟨hq1, _⟩ := mapGet_mapDelete hq
        exact mapGet_mapDelete hq1
      | error err =>
        refine ⟨_, _, rfl, ?_⟩
        exact no_entity_after s p e _ now2 _ _ (fun q g hq => mapGet_mapDelete hq) huniq

theorem C1_witness :
    ∃ s1 n, StorageService.deleteItem 3 (.item exItem) exState = .ok (s1, n) ∧
      "a" ∉ ((StorageService.getItems true 4 s1).1.map Item.id) := by
  have huniq : ∀ q g i, mapGet exState.remote.files q = some g → g.content = .entity i →
      i.id = exItem.id → q = "data/100-a.json" := by
    intro q g i hq h1 h2
    by_cases h : ("data/100-a.json" : String) = q
    · exact h.symm
    · simp [exState, exRemote, mapGet, h] at hq
  exact C1_delete_requires_path_index.2 3 4 exItem exState "data/100-a.json"
    { content := .entity exItem, sha := 0 } (by decide) rfl (by decide) huniq

end Remember
